import Mathlib

/-
Verification of the nginx-proxy configuration compiler and controller in
`src/server/controller/nginx-proxy.ts`.

The compiler core (`genNginxConfig` and its helpers `hasMechines`,
`genServiceLocation`, `genRedirectHttpsLocation`, `genNginxSSL`,
`genNginxUpstream`) is embedded below as computable Lean functions.
JavaScript property dereferences that could fail at runtime (reading a
field of `undefined`) are threaded through `Option`: a `none` result of
`genNginxConfig` models a thrown `TypeError`.  Entity shapes
(`NginxProxy`, `Application`, `Mechine`, `Certificate`) and the config
tree shapes come from the fields the source reads and from the data
model in the design document, since the entity and parser modules are
not part of the compiled source.  The CRUD operations (`getInfo`,
`create`, `update`, `remove`) are embedded over an abstract repository
lookup; their filesystem and ORM effects are out of scope and only the
validation / lookup / field-assignment logic is modelled.
-/

namespace Nginx

/-- A compute target of an application: entity `Mechine` as used by the
source (`host`, `disabled`). -/
structure Mechine where
  host : String
  disabled : Bool
deriving DecidableEq

/-- An application: a stable `key` and an optional ordered collection of
compute targets.  `mechines = none` models the JS field being
`undefined`/`null` (falsy); `some l` models a present array, which in JS
is truthy even when empty. -/
structure Application where
  key : String
  mechines : Option (List Mechine)
deriving DecidableEq

/-- A certificate: opaque credential material `crt` / `crtKey`. -/
structure Certificate where
  crt : String
  crtKey : String
deriving DecidableEq

/-- The `NginxProxy` entity, with the fields the controller reads.  The
six TLS policy fields are opaque pass-through values, modelled as
strings. -/
structure NginxProxy where
  id : Int
  domains : Option String
  enableHttp : Bool
  enableHttps : Bool
  redirectHttps : Bool
  application : Option Application
  certificate : Option Certificate
  sslCiphers : String
  sslPreferServerCiphers : String
  sslProtocols : String
  sslSessionCache : String
  sslSessionTimeout : String
  sslStapling : String
deriving DecidableEq

/-- JS truthiness of an optional string: `undefined` and the empty
string are falsy, every other string is truthy. -/
def truthyStr : Option String → Bool
  | none => false
  | some s => !(s == "")

/-- One `proxy_set_header` entry. -/
structure NginxProxySetHeader where
  key : String
  value : String
deriving DecidableEq

/-- The `NginxFuzzyBoolean` enum of the config parser (only `On` is used
by the source). -/
inductive NginxFuzzyBoolean
  | On
  | Off
deriving DecidableEq

/-- The `NginxRewriteMode` enum of the config parser (only `Permanent`
is used by the source). -/
inductive NginxRewriteMode
  | Permanent
  | Redirect
deriving DecidableEq

/-- A rewrite rule: the source's `{ from, to, mode }` object (`from`
and `to` are Lean keywords, hence the field names `from_` / `to_`). -/
structure NginxRewrite where
  from_ : String
  to_ : String
  mode : NginxRewriteMode
deriving DecidableEq

/-- An `NginxLocation`: the fields the source assigns, each optional
because the source sets them field-by-field on a `{ path }` object. -/
structure NginxLocation where
  path : String
  sendFile : Option NginxFuzzyBoolean := none
  proxySetHeader : Option (List NginxProxySetHeader) := none
  proxyPass : Option String := none
  rewrite : Option NginxRewrite := none
deriving DecidableEq

/-- The SSL config block built by `genNginxSSL`. -/
structure NginxSSLConfig where
  certificate : String
  certificateKey : String
  sessionTimeout : String
  protocols : String
  ciphers : String
  sessionCache : String
  preferServerCiphers : String
  stapling : String
deriving DecidableEq

/-- One upstream server entry `{ host }`. -/
structure NginxUpstreamServer where
  host : String
deriving DecidableEq

/-- The upstream pool built by `genNginxUpstream`: `name` and the
ordered `servers` list. -/
structure NginxUpstreamConfig where
  name : String
  servers : List NginxUpstreamServer
deriving DecidableEq

/-- The HTTP virtual-host block: `serviceName` (copied from
`proxy.domains`) and the location list. -/
structure NginxHttpConfig where
  serviceName : Option String
  location : List NginxLocation
deriving DecidableEq

/-- The HTTPS virtual-host block: like the HTTP block plus an SSL
block. -/
structure NginxHttpsConfig where
  serviceName : Option String
  location : List NginxLocation
  ssl : NginxSSLConfig
deriving DecidableEq

/-- The config tree returned by `genNginxConfig`: the source starts from
`{}` and conditionally sets `upstream`, `http`, `https`. -/
structure NginxConfig where
  upstream : Option NginxUpstreamConfig := none
  http : Option NginxHttpConfig := none
  https : Option NginxHttpsConfig := none
deriving DecidableEq

/-- Source `hasMechines`: `!!(proxy.application && proxy.application.mechines)`.
A present array is truthy in JS even when empty, so the check is
presence of the collection, not non-emptiness. -/
def hasMechines (proxy : NginxProxy) : Bool :=
  match proxy.application with
  | none => false
  | some app => app.mechines.isSome

/-- Source `genServiceLocation`: the reverse-proxy location. -/
def genServiceLocation (upstreamName : String) : NginxLocation :=
  { path := "/"
    sendFile := some NginxFuzzyBoolean.On
    proxySetHeader := some
      [ { key := "X-Real-IP", value := "$remote_addr" },
        { key := "Host", value := "$http_host" } ]
    proxyPass := some ("http://" ++ upstreamName) }

/-- Source `genRedirectHttpsLocation`: the permanent redirect-to-HTTPS
location. -/
def genRedirectHttpsLocation : NginxLocation :=
  { path := "/"
    rewrite := some
      { from_ := "^/(.*)"
        to_ := "https://$server_name$1"
        mode := NginxRewriteMode.Permanent } }

/-- Source `genNginxSSL`: dereferences `proxy.certificate.crt` /
`.crtKey`; `none` models the `TypeError` raised when the certificate is
absent. -/
def genNginxSSL (proxy : NginxProxy) : Option NginxSSLConfig :=
  match proxy.certificate with
  | none => none
  | some cert => some
      { certificate := cert.crt
        certificateKey := cert.crtKey
        sessionTimeout := proxy.sslSessionTimeout
        protocols := proxy.sslProtocols
        ciphers := proxy.sslCiphers
        sessionCache := proxy.sslSessionCache
        preferServerCiphers := proxy.sslPreferServerCiphers
        stapling := proxy.sslStapling }

/-- Source `genNginxUpstream`: dereferences
`proxy.application.mechines`; `none` models the `TypeError` raised when
the application or its collection is absent.  Filters disabled targets,
keeps order, names the pool `{application.key}_{proxy.id}`. -/
def genNginxUpstream (proxy : NginxProxy) : Option NginxUpstreamConfig :=
  match proxy.application with
  | none => none
  | some app =>
    match app.mechines with
    | none => none
    | some ms => some
        { name := app.key ++ "_" ++ toString proxy.id
          servers := (ms.filter fun m => !m.disabled).map fun m => { host := m.host } }

/-- Source `genNginxConfig`: the config tree compiler.  The source
mutates a `config` object branch by branch; this embedding builds the
same final value, threading possible dereference failures through
`Option`. -/
def genNginxConfig (proxy : NginxProxy) : Option NginxConfig :=
  if !(truthyStr proxy.domains) then some {} else
  let withUpstream : Option NginxConfig :=
    if hasMechines proxy then
      match genNginxUpstream proxy with
      | none => none
      | some u => some { upstream := some u }
    else some {}
  match withUpstream with
  | none => none
  | some config0 =>
    let config1 : NginxConfig :=
      if proxy.enableHttp then
        let locs : List NginxLocation :=
          if proxy.redirectHttps then [genRedirectHttpsLocation]
          else match config0.upstream with
            | some u => [genServiceLocation u.name]
            | none => []
        { config0 with http := some { serviceName := proxy.domains, location := locs } }
      else config0
    if proxy.enableHttps && proxy.certificate.isSome then
      match genNginxSSL proxy with
      | none => none
      | some ssl =>
        let locs : List NginxLocation :=
          match config1.upstream with
          | some u => [genServiceLocation u.name]
          | none => []
        some { config1 with
               https := some { serviceName := proxy.domains, location := locs, ssl := ssl } }
    else some config1

/-- The upstream field of the compiled tree, factored out of
`genNginxConfig` for the structural lemmas below. -/
def cfgUpstream (proxy : NginxProxy) : Option NginxUpstreamConfig :=
  if hasMechines proxy then genNginxUpstream proxy else none

/-- The location list attached to a non-redirect block: one proxy
location when a pool exists, none otherwise. -/
def cfgLocations (proxy : NginxProxy) : List NginxLocation :=
  match cfgUpstream proxy with
  | some u => [genServiceLocation u.name]
  | none => []

/-- The http field of the compiled tree, factored out of
`genNginxConfig`. -/
def cfgHttp (proxy : NginxProxy) : Option NginxHttpConfig :=
  if proxy.enableHttp then
    some { serviceName := proxy.domains
           location := if proxy.redirectHttps then [genRedirectHttpsLocation]
                       else cfgLocations proxy }
  else none

/-- The https field of the compiled tree, factored out of
`genNginxConfig`. -/
def cfgHttps (proxy : NginxProxy) : Option NginxHttpsConfig :=
  if proxy.enableHttps && proxy.certificate.isSome then
    match genNginxSSL proxy with
    | some ssl => some { serviceName := proxy.domains, location := cfgLocations proxy, ssl := ssl }
    | none => none
  else none

/-- Error messages referenced by the controller (the `constant` module
is not part of the compiled source; only the two messages used are
modelled). -/
inductive ErrorMessage
  | illegalId
  | noNginxProxy
deriving DecidableEq

/-- A `ServerError` as thrown by the controller: HTTP status plus
message. -/
structure ServerError where
  status : Nat
  message : ErrorMessage
deriving DecidableEq

/-- A JavaScript value passed as an id: a number, a string, or
`undefined` — enough to express the `typeof id === "number"` check. -/
inductive JsVal
  | num (n : Int)
  | str (s : String)
  | undef
deriving DecidableEq

/-- Source `validateId`: `typeof id === "number" && id > 0`. -/
def validateId : JsVal → Bool
  | JsVal.num n => decide (0 < n)
  | _ => false

/-- Source `getInfo`.  The guard is `if (validateId(id)) throw`: the 400
error is raised when the id IS a positive number.  The repository is
modelled as a pure lookup; a 400 result is produced before and
independently of any lookup. -/
def getInfo (repo : JsVal → Option NginxProxy) (id : JsVal) :
    Except ServerError NginxProxy :=
  if validateId id then Except.error { status := 400, message := ErrorMessage.illegalId }
  else
    match repo id with
    | none => Except.error { status := 404, message := ErrorMessage.noNginxProxy }
    | some p => Except.ok p

/-- The options object of source `create` (the destructured fields). -/
structure CreateOptions where
  id : JsVal
  domains : Option String
  enableHttp : Bool
  enableHttps : Bool
  application : Option Application
  certificate : Option Certificate
  sslCiphers : String
  sslPreferServerCiphers : String
  sslProtocols : String
  sslSessionCache : String
  sslSessionTimeout : String
  sslStapling : String
deriving DecidableEq

/-- Source `create`: validates `options.id` with the same inverted
guard, then builds a fresh entity from the options and saves it.  The
store-assigned identity of the saved row is modelled by the `freshId`
argument (`create` never assigns `id` itself); `redirectHttps` is not
among the copied fields and stays at its default. -/
def create (options : CreateOptions) (freshId : Int) :
    Except ServerError NginxProxy :=
  if validateId options.id then
    Except.error { status := 400, message := ErrorMessage.illegalId }
  else Except.ok
    { id := freshId
      domains := options.domains
      enableHttp := options.enableHttp
      enableHttps := options.enableHttps
      redirectHttps := false
      application := options.application
      certificate := options.certificate
      sslCiphers := options.sslCiphers
      sslPreferServerCiphers := options.sslPreferServerCiphers
      sslProtocols := options.sslProtocols
      sslSessionCache := options.sslSessionCache
      sslSessionTimeout := options.sslSessionTimeout
      sslStapling := options.sslStapling }

/-- The options object of source `update` (the destructured fields);
`none` models an absent (`undefined`) property. -/
structure UpdateOptions where
  domains : Option String
  enableHttp : Option Bool
  enableHttps : Option Bool
  application : Option Application
  certificate : Option Certificate
deriving DecidableEq

/-- JS truthiness of an optional boolean: only a present `true` is
truthy. -/
def truthyBool : Option Bool → Bool
  | some b => b
  | none => false

/-- The five guarded assignments of source `update`:
`if (field) nginxProxy.field = field` for `domains`, `enableHttp`,
`enableHttps`, `application`, `certificate`.  No other field of the
stored entity is touched. -/
def applyUpdateOptions (p : NginxProxy) (o : UpdateOptions) : NginxProxy :=
  let p1 := if truthyStr o.domains then { p with domains := o.domains } else p
  let p2 := if truthyBool o.enableHttp then { p1 with enableHttp := true } else p1
  let p3 := if truthyBool o.enableHttps then { p2 with enableHttps := true } else p2
  let p4 := if o.application.isSome then { p3 with application := o.application } else p3
  if o.certificate.isSome then { p4 with certificate := o.certificate } else p4

/-- Source `update`: inverted id guard, repository lookup, then the
guarded field assignments of `applyUpdateOptions`; the saved and
returned entity is the updated one. -/
def update (repo : JsVal → Option NginxProxy) (id : JsVal) (o : UpdateOptions) :
    Except ServerError NginxProxy :=
  if validateId id then Except.error { status := 400, message := ErrorMessage.illegalId }
  else
    match repo id with
    | none => Except.error { status := 404, message := ErrorMessage.noNginxProxy }
    | some p => Except.ok (applyUpdateOptions p o)

/-- Source `remove`: inverted id guard, repository lookup, then row and
artifact deletion.  The deletions have no observable value here; `ok`
marks that the operation proceeded past the guard and the lookup. -/
def remove (repo : JsVal → Option NginxProxy) (id : JsVal) :
    Except ServerError Unit :=
  if validateId id then Except.error { status := 400, message := ErrorMessage.illegalId }
  else
    match repo id with
    | none => Except.error { status := 404, message := ErrorMessage.noNginxProxy }
    | some _ => Except.ok ()

/-- End-to-end example 3 of the design document: the application. -/
def smokeApp : Application :=
  { key := "api"
    mechines := some [ { host := "10.0.0.1", disabled := false },
                       { host := "10.0.0.2", disabled := true } ] }

/-- End-to-end example 3 of the design document: the full proxy record. -/
def smokeProxy : NginxProxy :=
  { id := 7
    domains := some "a.com"
    enableHttp := false
    enableHttps := true
    redirectHttps := false
    application := some smokeApp
    certificate := some { crt := "c", crtKey := "k" }
    sslCiphers := "ci"
    sslPreferServerCiphers := "on"
    sslProtocols := "pr"
    sslSessionCache := "sc"
    sslSessionTimeout := "st"
    sslStapling := "sp" }

/-- The tree `genNginxConfig` compiles `smokeProxy` to. -/
def smokeTree : NginxConfig :=
  { upstream := some { name := "api_7", servers := [ { host := "10.0.0.1" } ] }
    http := none
    https := some
      { serviceName := some "a.com"
        location := [ genServiceLocation "api_7" ]
        ssl := { certificate := "c", certificateKey := "k", sessionTimeout := "st",
                 protocols := "pr", ciphers := "ci", sessionCache := "sc",
                 preferServerCiphers := "on", stapling := "sp" } } }

/-- A proxy whose application has a present but EMPTY target
collection. -/
def emptyCollectionProxy : NginxProxy :=
  { smokeProxy with
    enableHttps := false
    application := some { key := "app", mechines := some [] } }

/-- A proxy with HTTP enabled and `redirectHttps` set. -/
def redirectProxy : NginxProxy :=
  { smokeProxy with enableHttp := true, enableHttps := false, redirectHttps := true }

/-- The tree `genNginxConfig` compiles `redirectProxy` to. -/
def redirectTree : NginxConfig :=
  { upstream := some { name := "api_7", servers := [ { host := "10.0.0.1" } ] }
    http := some { serviceName := some "a.com", location := [ genRedirectHttpsLocation ] }
    https := none }

/-- A proxy with HTTP enabled and no redirect. -/
def proxyModeProxy : NginxProxy :=
  { smokeProxy with enableHttp := true, enableHttps := false }

/-- The tree `genNginxConfig` compiles `proxyModeProxy` to. -/
def proxyModeTree : NginxConfig :=
  { upstream := some { name := "api_7", servers := [ { host := "10.0.0.1" } ] }
    http := some { serviceName := some "a.com", location := [ genServiceLocation "api_7" ] }
    https := none }

/-- The tree `genNginxConfig` compiles `smokeProxy` with both enable
flags cleared to: the pool alone, no blocks. -/
def poolOnlyTree : NginxConfig :=
  { upstream := some { name := "api_7", servers := [ { host := "10.0.0.1" } ] }
    http := none
    https := none }

/-- A repository with no rows, for concrete instantiations. -/
def emptyRepo : JsVal → Option NginxProxy := fun _ => none

/-- Concrete update options: new domains and `enableHttp: true`, the
rest absent. -/
def wUpdateOptions : UpdateOptions :=
  { domains := some "b.com"
    enableHttp := some true
    enableHttps := none
    application := none
    certificate := none }

/-- Concrete create options with a positive numeric id. -/
def wCreateOptions : CreateOptions :=
  { id := JsVal.num 5
    domains := some "a.com"
    enableHttp := true
    enableHttps := false
    application := none
    certificate := none
    sslCiphers := ""
    sslPreferServerCiphers := ""
    sslProtocols := ""
    sslSessionCache := ""
    sslSessionTimeout := ""
    sslStapling := "" }

theorem hasMechines_iff (proxy : NginxProxy) :
    hasMechines proxy = true ↔
      ∃ app ms, proxy.application = some app ∧ app.mechines = some ms := by
  unfold hasMechines
  cases happ : proxy.application with
  | none => simp
  | some app =>
    cases hm : app.mechines with
    | none => simp [hm]
    | some ms =>
      simp only [hm, Option.isSome_some, true_iff]
      exact ⟨app, ms, rfl, hm⟩

theorem genNginxUpstream_eq (proxy : NginxProxy) (app : Application) (ms : List Mechine)
    (ha : proxy.application = some app) (hm : app.mechines = some ms) :
    genNginxUpstream proxy =
      some { name := app.key ++ "_" ++ toString proxy.id
             servers := (ms.filter fun m => !m.disabled).map fun m => { host := m.host } } := by
  simp [genNginxUpstream, ha, hm]

theorem genNginxSSL_eq (proxy : NginxProxy) (cert : Certificate)
    (hc : proxy.certificate = some cert) :
    genNginxSSL proxy =
      some { certificate := cert.crt
             certificateKey := cert.crtKey
             sessionTimeout := proxy.sslSessionTimeout
             protocols := proxy.sslProtocols
             ciphers := proxy.sslCiphers
             sessionCache := proxy.sslSessionCache
             preferServerCiphers := proxy.sslPreferServerCiphers
             stapling := proxy.sslStapling } := by
  simp [genNginxSSL, hc]

/-- Structural characterization of the compiler on definitions with
truthy `domains`: the run succeeds and the three fields of the result
are given by the factored functions above. -/
theorem genNginxConfig_eq_of_domains (proxy : NginxProxy)
    (hd : truthyStr proxy.domains = true) :
    genNginxConfig proxy =
      some { upstream := cfgUpstream proxy, http := cfgHttp proxy, https := cfgHttps proxy } := by
  unfold genNginxConfig
  rw [hd]
  simp only [Bool.not_true, Bool.false_eq_true, if_false]
  by_cases hmc : hasMechines proxy
  · obtain ⟨app, ms, ha, hm⟩ := (hasMechines_iff proxy).1 hmc
    have hu := genNginxUpstream_eq proxy app ms ha hm
    by_cases hcert : proxy.certificate.isSome
    · obtain ⟨cert, hc⟩ := Option.isSome_iff_exists.1 hcert
      have hssl := genNginxSSL_eq proxy cert hc
      cases hh : proxy.enableHttp <;> cases hr : proxy.redirectHttps <;>
        cases hs : proxy.enableHttps <;>
        simp [hmc, hu, hssl, hh, hr, hs, hcert, cfgUpstream, cfgLocations, cfgHttp, cfgHttps]
    · cases hh : proxy.enableHttp <;> cases hr : proxy.redirectHttps <;>
        cases hs : proxy.enableHttps <;>
        simp [hmc, hu, hh, hr, hs, hcert, cfgUpstream, cfgLocations, cfgHttp, cfgHttps]
  · by_cases hcert : proxy.certificate.isSome
    · obtain ⟨cert, hc⟩ := Option.isSome_iff_exists.1 hcert
      have hssl := genNginxSSL_eq proxy cert hc
      cases hh : proxy.enableHttp <;> cases hr : proxy.redirectHttps <;>
        cases hs : proxy.enableHttps <;>
        simp [hmc, hssl, hh, hr, hs, hcert, cfgUpstream, cfgLocations, cfgHttp, cfgHttps]
    · cases hh : proxy.enableHttp <;> cases hr : proxy.redirectHttps <;>
        cases hs : proxy.enableHttps <;>
        simp [hmc, hh, hr, hs, hcert, cfgUpstream, cfgLocations, cfgHttp, cfgHttps]

/-- On a definition with falsy `domains` the compiler short-circuits to
the empty tree. -/
theorem genNginxConfig_no_domains (proxy : NginxProxy)
    (hd : truthyStr proxy.domains = false) :
    genNginxConfig proxy = some {} := by
  unfold genNginxConfig
  rw [hd]
  rfl

example : genNginxConfig smokeProxy = some smokeTree := by decide

example : genNginxConfig { smokeProxy with domains := some "" } = some {} := by decide

example : genNginxConfig redirectProxy = some redirectTree := by decide

example : genNginxConfig proxyModeProxy = some proxyModeTree := by decide

/-- C1 counterexample: a definition with truthy domains whose
application carries a PRESENT but EMPTY target collection still gets an
upstream pool attached (`app_7`, zero targets), refuting "upstream pool
attached iff the application has a non-empty target collection". -/
theorem upstream_attached_despite_empty_collection :
    (emptyCollectionProxy.application.map fun a => a.mechines) = some (some []) ∧
    genNginxConfig emptyCollectionProxy =
      some { upstream := some { name := "app_7", servers := [] }, http := none, https := none } := by
  constructor
  · decide
  · decide

/-- C1 (amended): for every definition with truthy `domains` the
compiler attaches an upstream pool iff the application AND its target
collection are present — the collection may be empty; and whenever both
are present the attached pool is named `{application.key}_{id}` with the
enabled targets in order, so an absent collection yields no pool and an
all-disabled collection yields a pool with zero targets. -/
theorem upstream_pool_attach_characterization (p : NginxProxy) (cfg : NginxConfig)
    (hd : truthyStr p.domains = true) (h : genNginxConfig p = some cfg) :
    (cfg.upstream.isSome = true ↔
      ∃ app ms, p.application = some app ∧ app.mechines = some ms) ∧
    (∀ app ms, p.application = some app → app.mechines = some ms →
      cfg.upstream = some
        { name := app.key ++ "_" ++ toString p.id
          servers := (ms.filter fun m => !m.disabled).map fun m => { host := m.host } }) := by
  rw [genNginxConfig_eq_of_domains p hd] at h
  injection h with h
  subst h
  constructor
  · rw [← hasMechines_iff]
    by_cases hmc : hasMechines p
    · obtain ⟨app, ms, ha, hm⟩ := (hasMechines_iff p).1 hmc
      simp [cfgUpstream, hmc, genNginxUpstream_eq p app ms ha hm]
    · simp [cfgUpstream, hmc]
  · intro app ms ha hm
    have hmc : hasMechines p = true := (hasMechines_iff p).2 ⟨app, ms, ha, hm⟩
    simp [cfgUpstream, hmc, genNginxUpstream_eq p app ms ha hm]

/-- Witness for the amended C1 at the concrete `smokeProxy`. -/
theorem upstream_pool_attach_characterization_witness :
    smokeTree.upstream = some { name := "api_7", servers := [ { host := "10.0.0.1" } ] } :=
  (upstream_pool_attach_characterization smokeProxy smokeTree (by decide) (by decide)).2
    smokeApp _ rfl rfl

/-- C2: a definition whose `domains` is absent or empty compiles to the
empty tree — no upstream pool, no HTTP block, no HTTPS block — whatever
the application, certificate and enable flags are. -/
theorem empty_tree_of_no_domains (p : NginxProxy)
    (hd : truthyStr p.domains = false) :
    genNginxConfig p = some { upstream := none, http := none, https := none } := by
  rw [genNginxConfig_no_domains p hd]

/-- Witness for C2: `smokeProxy` with its domains removed, application
and certificate still present. -/
theorem empty_tree_of_no_domains_witness :
    truthyStr ({ smokeProxy with domains := none } : NginxProxy).domains = false ∧
    genNginxConfig { smokeProxy with domains := none } =
      some { upstream := none, http := none, https := none } :=
  ⟨by decide, empty_tree_of_no_domains _ (by decide)⟩

/-- C7: a tree compiled from a definition in which neither protocol is
enabled, or whose `domains` is falsy, carries no HTTP and no HTTPS
block — even when an application with targets is attached. -/
theorem no_blocks_without_enable_or_domains (p : NginxProxy) (cfg : NginxConfig)
    (hc : (p.enableHttp = false ∧ p.enableHttps = false) ∨ truthyStr p.domains = false)
    (h : genNginxConfig p = some cfg) :
    cfg.http = none ∧ cfg.https = none := by
  rcases hc with ⟨hh, hs⟩ | hd
  · by_cases hd : truthyStr p.domains = true
    · rw [genNginxConfig_eq_of_domains p hd] at h
      injection h with h
      subst h
      simp [cfgHttp, cfgHttps, hh, hs]
    · rw [genNginxConfig_no_domains p (by simpa using hd)] at h
      injection h with h
      subst h
      exact ⟨rfl, rfl⟩
  · rw [genNginxConfig_no_domains p hd] at h
    injection h with h
    subst h
    exact ⟨rfl, rfl⟩

/-- Witness for C7: both flags off, domains present, application with
targets attached — the pool is built but no block is. -/
theorem no_blocks_without_enable_or_domains_witness :
    poolOnlyTree.http = none ∧ poolOnlyTree.https = none :=
  no_blocks_without_enable_or_domains { smokeProxy with enableHttps := false } poolOnlyTree
    (Or.inl ⟨by decide, by decide⟩) (by decide)

/-- C8: the compiler is total — on every input it returns a tree and
never fails; the certificate and target-collection dereferences are only
reached under guards that make them well-defined (`none` would model a
thrown `TypeError`). -/
theorem genNginxConfig_total (p : NginxProxy) : (genNginxConfig p).isSome = true := by
  by_cases hd : truthyStr p.domains = true
  · rw [genNginxConfig_eq_of_domains p hd]
    rfl
  · rw [genNginxConfig_no_domains p (by simpa using hd)]
    rfl

/-- C3: for a definition with truthy domains and an application whose
present target collection has at least one enabled target, the compiled
pool is named `{application.key}_{id}` and its targets are exactly the
hosts of the targets with `disabled != true`, in the collection's
original order. -/
theorem upstream_pool_name_and_enabled_targets (p : NginxProxy) (cfg : NginxConfig)
    (app : Application) (ms : List Mechine)
    (hd : truthyStr p.domains = true)
    (ha : p.application = some app) (hm : app.mechines = some ms)
    (_hen : (ms.any fun m => m.disabled != true) = true)
    (h : genNginxConfig p = some cfg) :
    cfg.upstream = some
      { name := app.key ++ "_" ++ toString p.id
        servers := (ms.filter fun m => m.disabled != true).map fun m => { host := m.host } } := by
  rw [genNginxConfig_eq_of_domains p hd] at h
  injection h with h
  subst h
  have hmc : hasMechines p = true := (hasMechines_iff p).2 ⟨app, ms, ha, hm⟩
  simp [cfgUpstream, hmc, genNginxUpstream_eq p app ms ha hm, bne]

/-- Witness for C3 at `smokeProxy`: one of the two targets is enabled. -/
theorem upstream_pool_name_and_enabled_targets_witness :
    ((smokeApp.mechines.getD []).any fun m => m.disabled != true) = true ∧
    smokeTree.upstream = some
      { name := "api_7", servers := [ { host := "10.0.0.1" } ] } :=
  ⟨by decide,
   upstream_pool_name_and_enabled_targets smokeProxy smokeTree smokeApp _
     (by decide) rfl rfl (by decide) (by decide)⟩

/-- C4: for a definition with truthy domains and `enableHttps = true`,
an HTTPS block exists iff a certificate reference exists (a missing
certificate is a silent skip); when present, the block's `serviceName`
is `domains`, its SSL block maps the certificate's `crt`/`crtKey` and
the six TLS policy fields one-to-one, and its location list is one proxy
location targeting the pool when a pool exists and empty otherwise. -/
theorem https_block_iff_certificate (p : NginxProxy) (cfg : NginxConfig)
    (hd : truthyStr p.domains = true) (hs : p.enableHttps = true)
    (h : genNginxConfig p = some cfg) :
    (cfg.https.isSome = true ↔ p.certificate.isSome = true) ∧
    (∀ cert, p.certificate = some cert →
      cfg.https = some
        { serviceName := p.domains
          location := match cfg.upstream with
            | some u => [genServiceLocation u.name]
            | none => []
          ssl := { certificate := cert.crt
                   certificateKey := cert.crtKey
                   sessionTimeout := p.sslSessionTimeout
                   protocols := p.sslProtocols
                   ciphers := p.sslCiphers
                   sessionCache := p.sslSessionCache
                   preferServerCiphers := p.sslPreferServerCiphers
                   stapling := p.sslStapling } }) := by
  rw [genNginxConfig_eq_of_domains p hd] at h
  injection h with h
  subst h
  constructor
  · by_cases hc : p.certificate.isSome
    · obtain ⟨cert, hcert⟩ := Option.isSome_iff_exists.1 hc
      simp [cfgHttps, hs, hc, genNginxSSL_eq p cert hcert]
    · simp [cfgHttps, hs, hc]
  · intro cert hcert
    have hc : p.certificate.isSome = true := by simp [hcert]
    simp [cfgHttps, hs, hc, genNginxSSL_eq p cert hcert, cfgLocations]

/-- Witness for C4 at `smokeProxy` (certificate present, pool present):
the HTTPS block carries the pass-through SSL block and one proxy
location targeting `api_7`. -/
theorem https_block_iff_certificate_witness :
    (smokeTree.https.isSome = true ↔ smokeProxy.certificate.isSome = true) :=
  (https_block_iff_certificate smokeProxy smokeTree (by decide) (by decide) (by decide)).1

/-- C5: for a definition with truthy domains, `enableHttp = true` and
`redirectHttps = true`, the HTTP block contains exactly one location of
redirect kind — path `/`, permanent rewrite from `^/(.*)` to the HTTPS
equivalent on the same server name — whether or not a pool exists. -/
theorem http_redirect_single_location (p : NginxProxy) (cfg : NginxConfig)
    (hd : truthyStr p.domains = true) (hh : p.enableHttp = true)
    (hr : p.redirectHttps = true) (h : genNginxConfig p = some cfg) :
    cfg.http = some
      { serviceName := p.domains
        location := [ { path := "/"
                        rewrite := some { from_ := "^/(.*)"
                                          to_ := "https://$server_name$1"
                                          mode := NginxRewriteMode.Permanent } } ] } := by
  rw [genNginxConfig_eq_of_domains p hd] at h
  injection h with h
  subst h
  simp [cfgHttp, hh, hr, genRedirectHttpsLocation]

/-- Witness for C5 at `redirectProxy` (which has a pool: the redirect
location is emitted regardless). -/
theorem http_redirect_single_location_witness :
    redirectTree.http = some
      { serviceName := some "a.com"
        location := [ { path := "/"
                        rewrite := some { from_ := "^/(.*)"
                                          to_ := "https://$server_name$1"
                                          mode := NginxRewriteMode.Permanent } } ] } :=
  http_redirect_single_location redirectProxy redirectTree
    (by decide) (by decide) (by decide) (by decide)

/-- C6: for a definition with truthy domains, `enableHttp = true` and
`redirectHttps` false: with a pool attached the HTTP block has exactly
one proxy location — path `/`, the X-Real-IP and Host header directives,
forward target `http://{poolName}`; with no pool the HTTP block is still
emitted with `serviceName = domains` and zero locations. -/
theorem http_proxy_or_empty_locations (p : NginxProxy) (cfg : NginxConfig)
    (hd : truthyStr p.domains = true) (hh : p.enableHttp = true)
    (hr : p.redirectHttps = false) (h : genNginxConfig p = some cfg) :
    (∀ u, cfg.upstream = some u →
      cfg.http = some
        { serviceName := p.domains
          location := [ { path := "/"
                          sendFile := some NginxFuzzyBoolean.On
                          proxySetHeader := some
                            [ { key := "X-Real-IP", value := "$remote_addr" },
                              { key := "Host", value := "$http_host" } ]
                          proxyPass := some ("http://" ++ u.name) } ] }) ∧
    (cfg.upstream = none → cfg.http = some { serviceName := p.domains, location := [] }) := by
  rw [genNginxConfig_eq_of_domains p hd] at h
  injection h with h
  subst h
  constructor
  · intro u hu
    dsimp only at hu
    simp only [cfgHttp, hh, if_true, hr, Bool.false_eq_true, if_false]
    simp [cfgLocations, hu, genServiceLocation]
  · intro hu
    dsimp only at hu
    simp only [cfgHttp, hh, if_true, hr, Bool.false_eq_true, if_false]
    simp [cfgLocations, hu]

/-- Witness for C6 at `proxyModeProxy`: pool present, one proxy
location targeting `api_7`. -/
theorem http_proxy_or_empty_locations_witness :
    proxyModeTree.http = some
      { serviceName := some "a.com"
        location := [ { path := "/"
                        sendFile := some NginxFuzzyBoolean.On
                        proxySetHeader := some
                          [ { key := "X-Real-IP", value := "$remote_addr" },
                            { key := "Host", value := "$http_host" } ]
                        proxyPass := some "http://api_7" } ] } :=
  (http_proxy_or_empty_locations proxyModeProxy proxyModeTree
    (by decide) (by decide) (by decide) (by decide)).1
    { name := "api_7", servers := [ { host := "10.0.0.1" } ] } rfl

/-- C9: `validateId` accepts exactly the positive numbers, and every
call site applies it with inverted polarity — a positive numeric id
makes `getInfo`, `create`, `update` and `remove` fail with the 400
illegal-id error (independently of the repository, which is universally
quantified here: the error precedes any lookup), while any other id
passes the check and proceeds to the repository lookup or to entity
construction. -/
theorem validateId_guard_inverted (id : JsVal) (repo : JsVal → Option NginxProxy)
    (o : UpdateOptions) (c : CreateOptions) (fid : Int) :
    (validateId id = true ↔ ∃ n : Int, id = JsVal.num n ∧ 0 < n) ∧
    (validateId id = true →
      getInfo repo id = Except.error { status := 400, message := ErrorMessage.illegalId } ∧
      update repo id o = Except.error { status := 400, message := ErrorMessage.illegalId } ∧
      remove repo id = Except.error { status := 400, message := ErrorMessage.illegalId }) ∧
    (validateId c.id = true →
      create c fid = Except.error { status := 400, message := ErrorMessage.illegalId }) ∧
    (validateId id = false →
      getInfo repo id = (match repo id with
        | none => Except.error { status := 404, message := ErrorMessage.noNginxProxy }
        | some p => Except.ok p) ∧
      update repo id o = (match repo id with
        | none => Except.error { status := 404, message := ErrorMessage.noNginxProxy }
        | some p => Except.ok (applyUpdateOptions p o)) ∧
      remove repo id = (match repo id with
        | none => Except.error { status := 404, message := ErrorMessage.noNginxProxy }
        | some _ => Except.ok ())) ∧
    (validateId c.id = false →
      create c fid = Except.ok
        { id := fid
          domains := c.domains
          enableHttp := c.enableHttp
          enableHttps := c.enableHttps
          redirectHttps := false
          application := c.application
          certificate := c.certificate
          sslCiphers := c.sslCiphers
          sslPreferServerCiphers := c.sslPreferServerCiphers
          sslProtocols := c.sslProtocols
          sslSessionCache := c.sslSessionCache
          sslSessionTimeout := c.sslSessionTimeout
          sslStapling := c.sslStapling }) := by
  refine ⟨?_, ?_, ?_, ?_, ?_⟩
  · cases id with
    | num n => simp [validateId]
    | str s => simp [validateId]
    | undef => simp [validateId]
  · intro hv
    exact ⟨by simp [getInfo, hv], by simp [update, hv], by simp [remove, hv]⟩
  · intro hv
    simp [create, hv]
  · intro hv
    exact ⟨by simp [getInfo, hv], by simp [update, hv], by simp [remove, hv]⟩
  · intro hv
    simp [create, hv]

/-- Witness for C9: at the positive id 5 every operation yields the 400
illegal-id error; at the non-numeric id `undef` the lookup proceeds and
yields the 404 error on an empty repository. -/
theorem validateId_guard_inverted_witness :
    getInfo emptyRepo (JsVal.num 5) =
      Except.error { status := 400, message := ErrorMessage.illegalId } ∧
    getInfo emptyRepo JsVal.undef =
      Except.error { status := 404, message := ErrorMessage.noNginxProxy } :=
  ⟨((validateId_guard_inverted (JsVal.num 5) emptyRepo wUpdateOptions wCreateOptions 1).2.1
      (by decide)).1,
   by
    have h := ((validateId_guard_inverted JsVal.undef emptyRepo wUpdateOptions wCreateOptions 1).2.2.2.1
      (by decide)).1
    simpa [emptyRepo] using h⟩

/-- C10: `update` overwrites each of `domains`, `enableHttp`,
`enableHttps`, `application`, `certificate` only when the corresponding
option is truthy, leaves every other stored field (id, `redirectHttps`,
all six TLS policy fields) unchanged, and consequently can never turn
`enableHttp`/`enableHttps` from true to false nor clear `domains`,
`application` or `certificate`. -/
theorem update_touches_only_truthy_options (p : NginxProxy) (o : UpdateOptions) :
    (applyUpdateOptions p o).id = p.id ∧
    (applyUpdateOptions p o).redirectHttps = p.redirectHttps ∧
    (applyUpdateOptions p o).sslCiphers = p.sslCiphers ∧
    (applyUpdateOptions p o).sslPreferServerCiphers = p.sslPreferServerCiphers ∧
    (applyUpdateOptions p o).sslProtocols = p.sslProtocols ∧
    (applyUpdateOptions p o).sslSessionCache = p.sslSessionCache ∧
    (applyUpdateOptions p o).sslSessionTimeout = p.sslSessionTimeout ∧
    (applyUpdateOptions p o).sslStapling = p.sslStapling ∧
    (applyUpdateOptions p o).domains =
      (if truthyStr o.domains then o.domains else p.domains) ∧
    (applyUpdateOptions p o).enableHttp =
      (if truthyBool o.enableHttp then true else p.enableHttp) ∧
    (applyUpdateOptions p o).enableHttps =
      (if truthyBool o.enableHttps then true else p.enableHttps) ∧
    (applyUpdateOptions p o).application =
      (if o.application.isSome then o.application else p.application) ∧
    (applyUpdateOptions p o).certificate =
      (if o.certificate.isSome then o.certificate else p.certificate) ∧
    (p.enableHttp = true → (applyUpdateOptions p o).enableHttp = true) ∧
    (p.enableHttps = true → (applyUpdateOptions p o).enableHttps = true) ∧
    (truthyStr p.domains = true → truthyStr (applyUpdateOptions p o).domains = true) ∧
    (p.application.isSome = true → (applyUpdateOptions p o).application.isSome = true) ∧
    (p.certificate.isSome = true → (applyUpdateOptions p o).certificate.isSome = true) := by
  unfold applyUpdateOptions
  by_cases h1 : truthyStr o.domains <;>
    by_cases h2 : truthyBool o.enableHttp <;>
    by_cases h3 : truthyBool o.enableHttps <;>
    by_cases h4 : o.application.isSome <;>
    by_cases h5 : o.certificate.isSome <;>
    simp_all [truthyStr, truthyBool]

/-- Witness for C10 at `smokeProxy` with options carrying new domains
and `enableHttp: true` only: the TLS fields survive and `enableHttp`
rises to true. -/
theorem update_touches_only_truthy_options_witness :
    (applyUpdateOptions smokeProxy wUpdateOptions).sslCiphers = smokeProxy.sslCiphers :=
  (update_touches_only_truthy_options smokeProxy wUpdateOptions).2.2.1

end Nginx
